import Mathlib

/-!
Verification of the shore multi-model chat orchestrator.

This file shallowly embeds the parts of the source that the checked
properties are about:

* the message data model and its constructors (src/model/chat.rs),
* message loading order (src/database.rs, get_chat_messages),
* the per-model transcript view builder (src/app.rs, load_selected_chat),
* the inference chain scheduler (src/app.rs, spawn_inference_task),
* the event handlers of the control loop (src/app.rs, handle_inference_event),
* the model catalog reconciler (src/app.rs, refresh_models_with_provider_api).

Rust machine integers (i64) are embedded as Int; the source never relies on
wrap-around for these values (they are database row ids and millisecond
timestamps).  HashMap values are embedded as key/value lists with
lookup-based access; HashSet as lists with membership-based access.
Wall-clock reads (chrono::Utc::now) become explicit time parameters.
-/

namespace Shore

/-- ChatRole from src/model/chat.rs (User = 1, Assistant = 2, ToolResult = 3). -/
inductive ChatRole where
  | user
  | assistant
  | toolResult
  deriving DecidableEq, Repr

/-- ChatMessage from src/model/chat.rs.  Field names follow the source. -/
structure ChatMessage where
  id : Int
  dt : Int
  response_dt : Option Int
  chat_id : Int
  model_id : Option Int
  chat_role : ChatRole
  content : Option String
  name : Option String
  reasoning_content : Option String
  tool_calls : Option String
  tool_call_id : Option String
  error : Option String
  deriving DecidableEq, Repr

/-- Chat from src/model/chat.rs. -/
structure Chat where
  id : Int
  dt : Int
  title : Option String
  deriving DecidableEq, Repr

/-- Model from src/model/model.rs. -/
structure Model where
  id : Int
  provider_id : Int
  model : String
  disabled : Bool
  deprecated : Bool
  created_dt : Int
  deriving DecidableEq, Repr

/-- Provider from src/provider/provider.rs (fields the reconciler reads). -/
structure Provider where
  id : Int
  name : String
  base_url : String
  disabled : Bool
  deprecated : Bool
  api_key_env_var : String
  created_dt : Int
  models_from_list : Bool
  availability_requires_models_response : Bool
  last_models_update_timestamp : Int
  models_refresh_interval_seconds : Int
  deriving DecidableEq, Repr

/-- ChatMessage::new_user_message (src/model/chat.rs:97-112).
`nowMs` stands for chrono::Utc::now().timestamp_millis(). -/
def ChatMessage.new_user_message (chat_id : Int) (content : String) (nowMs : Int) :
    ChatMessage :=
  { id := 0
    dt := nowMs
    response_dt := none
    chat_id := chat_id
    model_id := none
    chat_role := ChatRole.user
    content := some content
    name := none
    reasoning_content := none
    tool_calls := none
    tool_call_id := none
    error := none }

/-- ChatMessage::new_assistant_message (src/model/chat.rs:114-129).
The source sets `dt` to the originating user message's dt and puts the
wall clock only into `response_dt`. -/
def ChatMessage.new_assistant_message (chat_id model_id : Int) (content : String)
    (user_message_dt : Int) (nowMs : Int) : ChatMessage :=
  { id := 0
    dt := user_message_dt
    response_dt := some nowMs
    chat_id := chat_id
    model_id := some model_id
    chat_role := ChatRole.assistant
    content := some content
    name := none
    reasoning_content := none
    tool_calls := none
    tool_call_id := none
    error := none }

/-- ChatMessage::new_assistant_message_with_error (src/model/chat.rs:131-146). -/
def ChatMessage.new_assistant_message_with_error (chat_id model_id : Int)
    (error : String) (user_message_dt : Int) (nowMs : Int) : ChatMessage :=
  { id := 0
    dt := user_message_dt
    response_dt := some nowMs
    chat_id := chat_id
    model_id := some model_id
    chat_role := ChatRole.assistant
    content := none
    name := none
    reasoning_content := none
    tool_calls := none
    tool_call_id := none
    error := some error }

/-- The message creation sequence of one prompt/response exchange, in creation
order: submit_message writes the user message (app.rs:1334-1336), then the
spawned task writes the assistant reply built with `user_message.dt`
(app.rs:1372 passes `user_message.dt`; app.rs:1655-1661 builds the reply). -/
def promptExchangeLog (chat_id model_id : Int) (content reply : String)
    (t_user t_reply : Int) : List ChatMessage :=
  [ChatMessage.new_user_message chat_id content t_user,
   ChatMessage.new_assistant_message chat_id model_id reply
     (ChatMessage.new_user_message chat_id content t_user).dt t_reply]

/-- The strict dt-ordering predicate that C2 asserts for a chat's message log
taken in creation order. -/
def strictlyIncreasingDtsB : List ChatMessage → Bool
  | [] => true
  | [_] => true
  | a :: b :: rest => a.dt < b.dt && strictlyIncreasingDtsB (b :: rest)

/-- InferenceEvent from src/app.rs:70-90 (the Event Bus payloads). -/
inductive InferenceEvent where
  | inferenceComplete (chat_id model_id origin_message_id : Int) (result : ChatMessage)
  | titleInferenceComplete (chat_id : Int) (title : String)
  | modelsRefreshed (added_models : List Model) (removed_model_ids : List Int)
      (temporarily_unavailable_models : List Model) (providers_to_remove : List Int)
  deriving DecidableEq, Repr

/-- An externally visible effect of a spawned generation task: an Event Bus
send (tx.send) or a Transcript Store append (database.add_chat_message). -/
inductive TaskEffect where
  | sendEvent (e : InferenceEvent)
  | dbWrite (m : ChatMessage)
  deriving DecidableEq, Repr

/-- The conversation the spawned task feeds to the provider (app.rs:1608-1635):
when a prior chain handle exists and resolves, the prior link's returned
conversation extended with the newest user turn (the last element of the
submission-time view, app.rs:1614-1617); when the prior handle fails, or no
prior handle exists, the submission-time view itself. -/
def chainedConversation (prereq : Option (Except Unit (List ChatMessage)))
    (conversation : List ChatMessage) : List ChatMessage :=
  match prereq with
  | some (Except.ok joinhandle_conversation) =>
      match conversation.getLast? with
      | some recent_prompt_message => joinhandle_conversation ++ [recent_prompt_message]
      | none => joinhandle_conversation
  | some (Except.error _) => conversation
  | none => conversation

/-- The assistant message the task builds from the provider outcome
(app.rs:1648-1671): content on success, error-only on failure.  Both reuse
the originating user message's dt (app.rs:1660, 1668). -/
def taskMessage (chat_id model_id : Int) (user_message_dt : Int)
    (genResult : Except String String) (nowMs : Int) : ChatMessage :=
  match genResult with
  | Except.ok result_content =>
      ChatMessage.new_assistant_message chat_id model_id result_content user_message_dt nowMs
  | Except.error e =>
      ChatMessage.new_assistant_message_with_error chat_id model_id
        (toString e) user_message_dt nowMs

/-- A completed task run: the effect sequence in program order and the value
the join handle returns. -/
structure TaskRun where
  effects : List TaskEffect
  returned : List ChatMessage
  deriving Repr

/-- The body of the generation task spawned at app.rs:1607-1719, as the
sequence of externally visible effects it performs, in program order: it
sends the completion event (app.rs:1673-1678) and THEN awaits the Transcript
Store append (app.rs:1680-1683).  The handle returns the chained conversation
with the new assistant message pushed (app.rs:1684, 1718).  The provider call
outcome is the `genResult` parameter; the best-effort title sub-task
(app.rs:1686-1717) performs no store write and is not part of this run. -/
def inferenceTaskBody (chat_id model_id user_message_id user_message_dt : Int)
    (prereq : Option (Except Unit (List ChatMessage)))
    (conversation : List ChatMessage)
    (genResult : Except String String) (nowMs : Int) : TaskRun :=
  let current_conversation := chainedConversation prereq conversation
  let new_assistant_message := taskMessage chat_id model_id user_message_dt genResult nowMs
  { effects := [TaskEffect.sendEvent (InferenceEvent.inferenceComplete chat_id model_id
                  user_message_id new_assistant_message),
                TaskEffect.dbWrite new_assistant_message],
    returned := current_conversation ++ [new_assistant_message] }

/-- Position of the first Event Bus send in a run's effect sequence. -/
def eventIdx (r : TaskRun) : Option Nat :=
  r.effects.findIdx? fun e => match e with
    | TaskEffect.sendEvent _ => true
    | _ => false

/-- Position of the first Transcript Store append in a run's effect sequence. -/
def dbWriteIdx (r : TaskRun) : Option Nat :=
  r.effects.findIdx? fun e => match e with
    | TaskEffect.dbWrite _ => true
    | _ => false

/-- The ordering C1 asserts: the store append happens strictly before the
completion event is pushed. -/
def db_append_before_event (r : TaskRun) : Bool :=
  match dbWriteIdx r, eventIdx r with
  | some i, some j => decide (i < j)
  | _, _ => false

/-- One concrete completed generation: chat 1, model 7, user message 5
submitted at t=1000ms, no prior chain handle, provider returns "hello". -/
def sampleRun : TaskRun :=
  inferenceTaskBody 1 7 5 1000 none
    [ChatMessage.new_user_message 1 "hi" 1000] (Except.ok "hello") 2000

/-- One scheduler-relevant action around task spawning: the control loop
calling tokio::spawn (app.rs:1607), the control loop inserting the join
handle into the (chat, model) chain-handle table (app.rs:1726-1727), and
the spawned task finishing. -/
inductive SchedulerAct where
  | spawnTask
  | registerHandle
  | taskCompletes
  deriving DecidableEq, Repr

/-- All interleavings of two sequences, each kept in its own order. -/
def interleavings {α : Type} : List α → List α → List (List α)
  | [], ys => [ys]
  | x :: xs, [] => [x :: xs]
  | x :: xs, y :: ys =>
      (interleavings xs (y :: ys)).map (fun l => x :: l)
        ++ (interleavings (x :: xs) ys).map (fun l => y :: l)
  termination_by xs ys => xs.length + ys.length

/-- Executions of the tail of spawn_inference_task (app.rs:1607-1727) on the
multi-threaded work-stealing runtime: the control loop performs spawnTask
and then registerHandle with no await between them, while the spawned task,
which exists only after spawnTask, runs on another worker and may finish at
any interleaved point. -/
def spawnThenRegisterExecutions : List (List SchedulerAct) :=
  (interleavings [SchedulerAct.registerHandle] [SchedulerAct.taskCompletes]).map
    (fun l => SchedulerAct.spawnTask :: l)

/-- Whether an execution registers the chain handle strictly before the
spawned task completes. -/
def registeredBeforeCompletion (e : List SchedulerAct) : Bool :=
  match e.findIdx? (fun a => a == SchedulerAct.registerHandle),
        e.findIdx? (fun a => a == SchedulerAct.taskCompletes) with
  | some i, some j => decide (i < j)
  | _, _ => true

/-- One round of the extraction loop in load_selected_chat (app.rs:1228-1241)
for one model id: walk the shared log once; a message whose model_id equals
the current model is moved out of the log (Vec::remove) into the model's
view; a message with no model_id (a user message) is cloned into the view
and kept; any other message is skipped and kept.  Returns the view and the
log that remains for the next model. -/
def extractView (model_id : Int) :
    List ChatMessage → List ChatMessage × List ChatMessage
  | [] => ([], [])
  | curr_message :: rest =>
      let prev := extractView model_id rest
      if curr_message.model_id == some model_id then
        (curr_message :: prev.1, prev.2)
      else if curr_message.model_id == none then
        (curr_message :: prev.1, curr_message :: prev.2)
      else
        (prev.1, curr_message :: prev.2)

/-- The current_messages construction of load_selected_chat
(app.rs:1225-1243): extract each bound model's view in profile order,
threading the shrinking shared log, and store the view under the model id. -/
def buildViews (model_ids : List Int) (log : List ChatMessage) :
    List (Int × List ChatMessage) :=
  match model_ids with
  | [] => []
  | m :: rest =>
      let vr := extractView m log
      (m, vr.1) :: buildViews rest vr.2

/-- Iterator::position — index of the first element satisfying `p`. -/
def position {α : Type} (p : α → Bool) : List α → Option Nat
  | [] => none
  | a :: l => if p a then some 0 else (position p l).map (fun i => i + 1)

/-- Vec::insert(idx, el): splice the element in at the index (every call
site here has idx ≤ length; Rust would panic otherwise). -/
def vecInsert {α : Type} (l : List α) (idx : Nat) (a : α) : List α :=
  l.take idx ++ a :: l.drop idx

/-- The in-memory view update on InferenceComplete for the selected chat
(app.rs:1406-1427): locate the originating user message by identity, insert
the new assistant turn immediately after it, or append at the end when no
message carries that identity. -/
def insertCompletionResult (messages : List ChatMessage)
    (origin_message_id : Int) (result : ChatMessage) : List ChatMessage :=
  let origin_message_idx :=
    position (fun message => message.id == origin_message_id) messages
  let insert_idx := match origin_message_idx with
    | some idx => idx + 1
    | none => messages.length
  vecInsert messages insert_idx result

/-- The TitleInferenceComplete branch of handle_inference_event
(app.rs:1439-1463): walk chat_history to the first chat with the event's
chat id; when its title is still unset, persist the derived title
(update_chat_title) and set it in memory; otherwise change nothing (the
in-memory mirror current_chat.title follows the same branch).  Returns the
updated history and the store write, if one happened. -/
def handleTitleComplete : List Chat → Int → String → List Chat × Option (Int × String)
  | [], _, _ => ([], none)
  | chat :: rest, chat_id, title =>
      if chat.id == chat_id then
        if chat.title = none then
          ({ chat with title := some title } :: rest, some (chat_id, title))
        else
          (chat :: rest, none)
      else
        let pr := handleTitleComplete rest chat_id title
        (chat :: pr.1, pr.2)

/-- HashMap::remove on an association list: drop the key's entry. -/
def mapRemove {κ ν : Type} [BEq κ] (k : κ) (l : List (κ × ν)) : List (κ × ν) :=
  l.filter (fun kv => !(kv.1 == k))

/-- HashMap::insert on an association list: bind the key to the value. -/
def mapInsert {κ ν : Type} [BEq κ] (k : κ) (v : ν) (l : List (κ × ν)) : List (κ × ν) :=
  (k, v) :: mapRemove k l

/-- Outcome of one spawn_inference_task call (app.rs:1538-1728), up to and
including handle registration: the chain-handle table afterwards, the prior
handle taken for chaining, the synchronous Transcript Store writes, the
Event Bus sends performed synchronously (none on any path), the in-progress
marker sets, and whether a generation task was spawned.  Join handles are
opaque tokens (Nat). -/
structure SpawnOutcome where
  handles_after : List ((Int × Int) × Nat)
  prereq_taken : Option Nat
  dbWrites : List ChatMessage
  events : List InferenceEvent
  in_progress_after : List (Int × Int)
  title_in_progress_after : List Int
  spawned : Bool
  deriving Repr

/-- spawn_inference_task (app.rs:1538-1728) up to handle registration. In
source order: take the prior (chat, model) chain handle out of the table
(app.rs:1554-1561); look the model up in available_models and on a miss
write an error-only assistant message and return (app.rs:1563-1579); look
the provider client up and on a miss write an error-only assistant message
and return (app.rs:1581-1597); otherwise mark the (message, model) pair in
progress (app.rs:1600-1601), optionally mark title inference in progress
(app.rs:1603-1605), spawn the task and register the new handle as the chain
tail (app.rs:1607, 1726-1727). -/
def spawn_inference_task
    (inference_handles_by_chat_and_model : List ((Int × Int) × Nat))
    (available_models : List (Int × Model))
    (provider_clients : List Int)
    (inference_in_progress_by_message_and_model : List (Int × Int))
    (title_inference_in_progress_by_chat : List Int)
    (model_id user_message_id user_message_dt chat_id : Int)
    (conversation : List ChatMessage)
    (generate_title : Bool)
    (nowMs : Int)
    (new_handle : Nat) : SpawnOutcome :=
  let prereq_handle := inference_handles_by_chat_and_model.lookup (chat_id, model_id)
  let handles := mapRemove (chat_id, model_id) inference_handles_by_chat_and_model
  match available_models.lookup model_id with
  | none =>
      let msg := ChatMessage.new_assistant_message_with_error chat_id model_id
        ("Model id " ++ toString model_id ++ " not found") user_message_dt nowMs
      { handles_after := handles
        prereq_taken := prereq_handle
        dbWrites := [msg]
        events := []
        in_progress_after := inference_in_progress_by_message_and_model
        title_in_progress_after := title_inference_in_progress_by_chat
        spawned := false }
  | some model =>
      if provider_clients.contains model.provider_id then
        { handles_after := mapInsert (chat_id, model_id) new_handle handles
          prereq_taken := prereq_handle
          dbWrites := []
          events := []
          in_progress_after := List.insert (user_message_id, model_id)
            inference_in_progress_by_message_and_model
          title_in_progress_after := if generate_title
            then List.insert chat_id title_inference_in_progress_by_chat
            else title_inference_in_progress_by_chat
          spawned := true }
      else
        let msg := ChatMessage.new_assistant_message_with_error chat_id model_id
          ("Provider for model id " ++ toString model_id ++ " not found")
          user_message_dt nowMs
        { handles_after := handles
          prereq_taken := prereq_handle
          dbWrites := [msg]
          events := []
          in_progress_after := inference_in_progress_by_message_and_model
          title_in_progress_after := title_inference_in_progress_by_chat
          spawned := false }

/-- Aggregated state of one reconciliation pass (app.rs:230-233) plus the
record of sync_provider_models calls issued (app.rs:274-283).  Each call is
(provider id, models to insert, model ids to remove, timestamp).
sync_provider_models itself is not part of the sources (only its call site
is), so the store's reply to each call is the abstract `syncResult`
parameter threaded through the pass. -/
structure RefreshOutcome where
  all_added_models : List Model
  all_removed_model_ids : List Int
  providers_to_remove : List Int
  temporarily_unavailable_models : List Model
  dbSyncCalls : List (Int × List Model × List Int × Int)
  deriving Repr

/-- The empty accumulators the pass starts from (app.rs:230-233). -/
def emptyRefreshOutcome : RefreshOutcome := ⟨[], [], [], [], []⟩

/-- Provider selection for refresh (app.rs:197-218): providers whose
availability can only be determined by a catalog fetch, or whose cached
list-sourced catalog exceeded its refresh interval. -/
def needsRefresh (now : Int) (provider : Provider) : Bool :=
  if provider.availability_requires_models_response then
    true
  else if !provider.models_from_list then
    false
  else
    decide (now > provider.last_models_update_timestamp
      + provider.models_refresh_interval_seconds)

/-- One provider's round of the reconciliation loop (app.rs:235-319).  With
a client present: on catalog fetch success, diff by model NAME against the
provider's known models and issue one sync_provider_models call, folding
the store's reply into the aggregated add/remove lists (a store error only
logs); on fetch failure, extend the temporarily-unavailable list with the
provider's known models and mark the provider for removal — no store call.
Without a client the provider is skipped. -/
def refreshStep (all_models : List Model) (provider_clients : List Int) (now : Int)
    (fetchResult : Int → Except Unit (List Model))
    (syncResult : Int → Except Unit (List Model × List Int))
    (acc : RefreshOutcome) (provider : Provider) : RefreshOutcome :=
  let existing_models := all_models.filter (fun m => m.provider_id == provider.id)
  if provider_clients.contains provider.id then
    match fetchResult provider.id with
    | Except.ok models_map =>
        let models_to_insert := models_map.filter
          (fun mf => !(existing_models.any (fun e => e.model == mf.model)))
        let removed_model_ids := (existing_models.filter
          (fun e => !(models_map.any (fun mf => mf.model == e.model)))).map
            (fun m => m.id)
        let acc2 := { acc with dbSyncCalls := acc.dbSyncCalls
          ++ [(provider.id, models_to_insert, removed_model_ids, now)] }
        match syncResult provider.id with
        | Except.ok res =>
            { acc2 with
                all_added_models := acc2.all_added_models ++ res.1
                all_removed_model_ids := acc2.all_removed_model_ids ++ res.2 }
        | Except.error _ => acc2
    | Except.error _ =>
        { acc with
            temporarily_unavailable_models :=
              acc.temporarily_unavailable_models ++ existing_models
            providers_to_remove := acc.providers_to_remove ++ [provider.id] }
  else acc

/-- refresh_models_with_provider_api (app.rs:189-330): run the loop over the
providers selected for refresh and send ONE aggregated ModelsRefreshed event
for the whole pass (app.rs:321-329). -/
def refresh_models_with_provider_api (providers : List Provider)
    (provider_clients : List Int) (all_models : List Model) (now : Int)
    (fetchResult : Int → Except Unit (List Model))
    (syncResult : Int → Except Unit (List Model × List Int)) :
    RefreshOutcome × InferenceEvent :=
  let providers_to_refresh := providers.filter (needsRefresh now)
  let o := providers_to_refresh.foldl
    (refreshStep all_models provider_clients now fetchResult syncResult)
    emptyRefreshOutcome
  (o, InferenceEvent.modelsRefreshed o.all_added_models o.all_removed_model_ids
        o.temporarily_unavailable_models o.providers_to_remove)

/-- The catalog-related in-memory state of the app that the ModelsRefreshed
handler mutates (app.rs:113-121): the id-keyed model maps, the per-provider
key flags, the provider client capabilities (keyed by provider id) and the
marked-down provider set. -/
structure CatalogState where
  all_models : List (Int × Model)
  available_models : List (Int × Model)
  provider_api_keys_set : List (Int × Bool)
  provider_clients : List Int
  providers_marked_down : List Int
  deriving Repr

/-- Removal of one deleted model id from both model maps (app.rs:1477-1480). -/
def removeModelStep (st : CatalogState) (model_id : Int) : CatalogState :=
  { st with all_models := mapRemove model_id st.all_models
            available_models := mapRemove model_id st.available_models }

/-- Insertion of one added model (app.rs:1483-1494): always into all_models,
and into available_models only when the owning provider's key flag is set. -/
def addModelStep (st : CatalogState) (model : Model) : CatalogState :=
  { st with
      all_models := mapInsert model.id model st.all_models
      available_models :=
        if (st.provider_api_keys_set.lookup model.provider_id).getD false then
          mapInsert model.id model st.available_models
        else st.available_models }

/-- Removal of one unresponsive provider (app.rs:1497-1505): drop its key
flag and client capability and mark it down. -/
def removeProviderStep (st : CatalogState) (provider_id : Int) : CatalogState :=
  { st with
      provider_api_keys_set := mapRemove provider_id st.provider_api_keys_set
      provider_clients := st.provider_clients.filter (fun x => !(x == provider_id))
      providers_marked_down := List.insert provider_id st.providers_marked_down }

/-- One temporarily-unavailable model dropped from available_models only
(app.rs:1507-1513). -/
def tempUnavailableStep (st : CatalogState) (model : Model) : CatalogState :=
  { st with available_models := mapRemove model.id st.available_models }

/-- The ModelsRefreshed branch of handle_inference_event (app.rs:1464-1519),
in source order: removed models, added models, unresponsive providers,
temporarily unavailable models. -/
def handleModelsRefreshed (s : CatalogState) (added_models : List Model)
    (removed_model_ids : List Int) (temporarily_unavailable_models : List Model)
    (providers_to_remove : List Int) : CatalogState :=
  let s1 := removed_model_ids.foldl removeModelStep s
  let s2 := added_models.foldl addModelStep s1
  let s3 := providers_to_remove.foldl removeProviderStep s2
  temporarily_unavailable_models.foldl tempUnavailableStep s3

/-- Dispatch of a ModelsRefreshed event to its handler branch; other events
leave the catalog state alone. -/
def handleModelsRefreshedEvent (s : CatalogState) : InferenceEvent → CatalogState
  | InferenceEvent.modelsRefreshed a r t pr => handleModelsRefreshed s a r t pr
  | _ => s

/-- A sample newest user turn for the chaining witness. -/
def mU : ChatMessage := ChatMessage.new_user_message 1 "again" 3000

/-- A sample assistant turn appended by a prior chain link. -/
def mA : ChatMessage := ChatMessage.new_assistant_message 1 7 "hello" 1000 2000

/-- A sample loaded log entry: user turn of chat 1 with store id 5. -/
def vU1 : ChatMessage := { ChatMessage.new_user_message 1 "hi" 1000 with id := 5 }

/-- Sample assistant turn of bound model 1. -/
def vA1 : ChatMessage :=
  { ChatMessage.new_assistant_message 1 1 "hello" 1000 1500 with id := 6 }

/-- Sample assistant turn of model 3, no longer bound to the chat. -/
def vA3 : ChatMessage :=
  { ChatMessage.new_assistant_message 1 3 "hey" 1000 1600 with id := 7 }

/-- Sample chronological message log for the view-builder claims. -/
def viewLog : List ChatMessage := [vU1, vA1, vA3]

/-- A sample completion result for the insertion claims. -/
def rNew : ChatMessage :=
  { ChatMessage.new_assistant_message 1 2 "resp" 1000 1700 with id := 8 }

/-- A sample chat whose title the user already set. -/
def titledChat : Chat := { id := 1, dt := 500, title := some "user title" }

/-- A sample model (store id 2, provider 9) for the fail-fast witnesses. -/
def w9Model : Model :=
  { id := 2, provider_id := 9, model := "m-large", disabled := false,
    deprecated := false, created_dt := 0 }

/-- A sample provider whose availability requires a catalog response. -/
def p9 : Provider :=
  { id := 9, name := "prov", base_url := "http://localhost", disabled := false,
    deprecated := false, api_key_env_var := "PROV_KEY", created_dt := 0,
    models_from_list := false, availability_requires_models_response := true,
    last_models_update_timestamp := 0, models_refresh_interval_seconds := 3600 }

/-- A sample in-memory catalog state: provider 9 up with model 2 available. -/
def catState0 : CatalogState :=
  { all_models := [(2, w9Model)], available_models := [(2, w9Model)],
    provider_api_keys_set := [(9, true)], provider_clients := [9],
    providers_marked_down := [] }

/-- A fetch environment in which every provider's catalog fetch fails. -/
def fetchFail : Int → Except Unit (List Model) := fun _ => Except.error ()

/-- A store environment whose sync replies are empty diffs. -/
def syncNothing : Int → Except Unit (List Model × List Int) :=
  fun _ => Except.ok ([], [])

end Shore

namespace Shore

/-- C1: claimed that the assistant message is durably appended to the
Transcript Store before its completion event is pushed onto the Event Bus.
The code does the opposite: the task sends InferenceComplete (app.rs:1673)
and only then awaits add_chat_message (app.rs:1681), even though the
handler's own comment (app.rs:1401-1402) assumes the store write already
happened.  At the concrete completed generation `sampleRun`, the event is
effect 0 and the store append is effect 1. -/
theorem C1_code_bug :
    db_append_before_event sampleRun = false
    ∧ eventIdx sampleRun = some 0
    ∧ dbWriteIdx sampleRun = some 1 := by
  refine ⟨rfl, rfl, rfl⟩

/-- C2 counterexample: the claim asserts strictly increasing dts in creation
order; the concrete exchange (user "hi" at t=1000ms, model 7 replies
"hello" at t=2500ms) yields dts [1000, 1000], because
new_assistant_message reuses the originating user message's dt. -/
theorem C2_counterexample :
    strictlyIncreasingDtsB (promptExchangeLog 1 7 "hi" "hello" 1000 2500) = false
    ∧ (promptExchangeLog 1 7 "hi" "hello" 1000 2500).map ChatMessage.dt
        = [1000, 1000] := by
  refine ⟨rfl, rfl⟩

/-- C2 amended: assistant messages reuse the originating user message's dt
(the wall clock goes only into response_dt), so the dts of a chat's messages
in creation order are non-decreasing within an exchange but not strictly
increasing, and ordering by dt alone (get_chat_messages, database.rs:68,
ORDER BY dt ASC) cannot separate a user turn from its replies. -/
theorem C2_corrected (cid mid : Int) (content reply : String) (tu tr udt : Int) :
    (ChatMessage.new_assistant_message cid mid reply udt tr).dt = udt
    ∧ (ChatMessage.new_assistant_message_with_error cid mid reply udt tr).dt = udt
    ∧ List.Chain' (fun a b => a.dt ≤ b.dt)
        (promptExchangeLog cid mid content reply tu tr) :=
  ⟨rfl, rfl, List.Chain.cons le_rfl List.Chain.nil⟩

/-- C3: claimed that no execution observes the task's completion before the
handle registration.  The registration (app.rs:1726-1727) runs only after
tokio::spawn (app.rs:1607) has handed the task to the work-stealing pool,
and the source's own comment (app.rs:1722-1725) concedes the ordering "is
not guaranteed": the execution that completes the task between the spawn
and the registration is admissible, and in it the handle is not registered
before completion. -/
theorem C3_code_bug :
    [SchedulerAct.spawnTask, SchedulerAct.taskCompletes, SchedulerAct.registerHandle]
        ∈ spawnThenRegisterExecutions
    ∧ registeredBeforeCompletion
        [SchedulerAct.spawnTask, SchedulerAct.taskCompletes, SchedulerAct.registerHandle]
        = false := by
  have h : spawnThenRegisterExecutions
      = [[SchedulerAct.spawnTask, SchedulerAct.registerHandle, SchedulerAct.taskCompletes],
         [SchedulerAct.spawnTask, SchedulerAct.taskCompletes, SchedulerAct.registerHandle]] := by
    simp [spawnThenRegisterExecutions, interleavings]
  rw [h]
  exact ⟨by simp, rfl⟩

/-- C4: with a prior chain handle that resolved, the generation input is the
prior link's returned conversation extended with exactly the newest user
turn (the last message of the submission-time view); on prior-handle
failure, and with no prior handle, it is the submission-time view. -/
theorem C4_confirmed (joinhandle_conversation conversation : List ChatMessage)
    (recent : ChatMessage) (h : conversation.getLast? = some recent) :
    chainedConversation (some (Except.ok joinhandle_conversation)) conversation
        = joinhandle_conversation ++ [recent]
    ∧ chainedConversation (some (Except.error ())) conversation = conversation
    ∧ chainedConversation none conversation = conversation := by
  refine ⟨?_, rfl, rfl⟩
  simp [chainedConversation, h]

/-- C4 witness: the chaining rule evaluated on a concrete prior-link
conversation [mA] and submission-time view [mU]. -/
theorem C4_witness :
    chainedConversation (some (Except.ok [mA])) [mU] = [mA] ++ [mU]
    ∧ chainedConversation (some (Except.error ())) [mU] = [mU]
    ∧ chainedConversation none [mU] = [mU] :=
  C4_confirmed [mA] [mU] mU rfl

/-- The view a single extraction round collects is exactly the log messages
messages attributed to the model or carrying no model, in log order. -/
theorem extractView_fst (m : Int) (log : List ChatMessage) :
    (extractView m log).1
      = log.filter (fun msg => msg.model_id == some m || msg.model_id == none) := by
  induction log with
  | nil => rfl
  | cons a l ih =>
      simp only [extractView, List.filter_cons]
      cases h1 : (a.model_id == some m) <;> cases h2 : (a.model_id == none) <;>
        simp [h1, h2, ih]

/-- What a single extraction round leaves behind for the next model is the
log minus the messages attributed to the extracted model. -/
theorem extractView_snd (m : Int) (log : List ChatMessage) :
    (extractView m log).2
      = log.filter (fun msg => !(msg.model_id == some m)) := by
  induction log with
  | nil => rfl
  | cons a l ih =>
      simp only [extractView, List.filter_cons]
      cases h1 : (a.model_id == some m) <;> cases h2 : (a.model_id == none) <;>
        simp [h1, h2, ih]

/-- Despite the log shrinking between rounds, each bound model's stored view
equals the filter of the ORIGINAL log by that model's id (or no id). -/
theorem buildViews_lookup (model_ids : List Int) (log : List ChatMessage) (m : Int)
    (hm : m ∈ model_ids) (hnd : model_ids.Nodup) :
    (buildViews model_ids log).lookup m
      = some (log.filter (fun msg => msg.model_id == some m || msg.model_id == none)) := by
  induction model_ids generalizing log with
  | nil => cases hm
  | cons m' rest ih =>
      by_cases hmm : m = m'
      · subst hmm
        simp [buildViews, List.lookup, extractView_fst]
      · have hbeq : (m == m') = false := by
          simp only [beq_eq_false_iff_ne, ne_eq]
          exact hmm
        have hmem : m ∈ rest := by
          cases hm with
          | head => exact absurd rfl hmm
          | tail _ h => exact h
        rw [List.nodup_cons] at hnd
        simp only [buildViews, List.lookup, hbeq]
        rw [ih _ hmem hnd.2, extractView_snd, List.filter_filter]
        congr 1
        apply List.filter_congr
        intro x _
        rcases hx : x.model_id with _ | v
        · simp
        · by_cases hv : v = m
          · subst hv
            have hne : (some v == some m') = false := by
              simp only [beq_eq_false_iff_ne, ne_eq, Option.some.injEq]
              exact hmm
            simp [hne]
          · have h1 : (some v == some m) = false := by
              simp only [beq_eq_false_iff_ne, ne_eq, Option.some.injEq]
              exact hv
            simp [h1]

/-- C5: for a well-formed log (user messages carry no model id, assistant
messages carry one — the only shapes the message constructors produce) and
distinct bound model ids, every bound model's view is exactly the user
messages plus that model's assistant messages, in log order; and a message
attributed to a model outside the bound set lands in nobody's view. -/
theorem C5_confirmed (model_ids : List Int) (log : List ChatMessage)
    (hnd : model_ids.Nodup)
    (hwf : ∀ msg ∈ log, (msg.chat_role = ChatRole.user ∧ msg.model_id = none)
        ∨ (msg.chat_role = ChatRole.assistant ∧ msg.model_id.isSome = true)) :
    (∀ m ∈ model_ids,
        (buildViews model_ids log).lookup m
          = some (log.filter (fun msg => msg.chat_role == ChatRole.user
              || (msg.chat_role == ChatRole.assistant && msg.model_id == some m))))
    ∧ (∀ msg ∈ log, msg.model_id.isSome = true →
        (∀ x ∈ model_ids, msg.model_id ≠ some x) →
        ∀ m ∈ model_ids, ∀ view,
          (buildViews model_ids log).lookup m = some view → msg ∉ view) := by
  have hbridge : ∀ m : Int,
      log.filter (fun msg => msg.model_id == some m || msg.model_id == none)
        = log.filter (fun msg => msg.chat_role == ChatRole.user
            || (msg.chat_role == ChatRole.assistant && msg.model_id == some m)) := by
    intro m
    apply List.filter_congr
    intro x hx
    rcases hwf x hx with ⟨hu, hn⟩ | ⟨ha, hsome⟩
    · simp [hu, hn]
    · rcases hv : x.model_id with _ | v
      · rw [hv] at hsome; cases hsome
      · simp [ha]
  constructor
  · intro m hm
    rw [buildViews_lookup model_ids log m hm hnd, hbridge]
  · intro msg hmsg hsome hout m hm view hview
    rw [buildViews_lookup model_ids log m hm hnd] at hview
    have hv : view = log.filter
        (fun msg => msg.model_id == some m || msg.model_id == none) :=
      (Option.some.injEq _ _ ▸ hview).symm
    subst hv
    intro hmem
    have hp := (List.mem_filter.mp hmem).2
    rcases Bool.or_eq_true_iff.mp hp with h | h
    · exact hout m hm (by simpa [beq_iff_eq] using h)
    · rw [(by simpa [beq_iff_eq] using h : msg.model_id = none)] at hsome
      cases hsome

/-- C5 witness: on the concrete log, model 1's view is the role filter for
model 1, and the unbound model 3's assistant turn is in no bound view. -/
theorem C5_witness :
    ((buildViews [1, 2] viewLog).lookup 1
        = some (viewLog.filter (fun msg => msg.chat_role == ChatRole.user
            || (msg.chat_role == ChatRole.assistant && msg.model_id == some 1))))
    ∧ (∀ view, (buildViews [1, 2] viewLog).lookup 1 = some view → vA3 ∉ view) := by
  have h := C5_confirmed [1, 2] viewLog (by decide) (by decide)
  refine ⟨h.1 1 (by decide), fun view hview => ?_⟩
  exact h.2 vA3 (by decide) (by decide) (by decide) 1 (by decide) view hview

/-- Iterator::position finds an index holding an element satisfying the
predicate. -/
theorem position_eq_some {α : Type} (p : α → Bool) (l : List α) (i : Nat)
    (h : position p l = some i) : ∃ a, l.get? i = some a ∧ p a = true := by
  induction l generalizing i with
  | nil => simp [position] at h
  | cons a l ih =>
      by_cases hp : p a
      · simp [position, hp] at h
        exact h ▸ ⟨a, rfl, hp⟩
      · simp [position, hp] at h
        obtain ⟨j, hj, rfl⟩ := h
        obtain ⟨b, hb, hpb⟩ := ih j hj
        exact ⟨b, by simpa using hb, hpb⟩

/-- C6: when the event's originating message identity occurs in the model's
view, the new assistant turn is inserted immediately after the identified
position; when the identity is absent, the turn is appended at the end. -/
theorem C6_confirmed (messages : List ChatMessage) (origin_message_id : Int)
    (result : ChatMessage) :
    (∀ idx, position (fun m => m.id == origin_message_id) messages = some idx →
        (∃ m, messages.get? idx = some m ∧ m.id = origin_message_id)
        ∧ insertCompletionResult messages origin_message_id result
            = messages.take (idx + 1) ++ result :: messages.drop (idx + 1))
    ∧ (position (fun m => m.id == origin_message_id) messages = none →
        insertCompletionResult messages origin_message_id result
          = messages ++ [result]) := by
  constructor
  · intro idx h
    obtain ⟨a, ha, hpa⟩ := position_eq_some _ _ _ h
    refine ⟨⟨a, ha, by simpa [beq_iff_eq] using hpa⟩, ?_⟩
    simp [insertCompletionResult, h, vecInsert]
  · intro h
    simp [insertCompletionResult, h, vecInsert]

/-- C6 witness: inserting after the identified origin (id 5 at index 0 of
[vU1, vA1]), and appending when the identity (42) is absent. -/
theorem C6_witness :
    ((∃ m, [vU1, vA1].get? 0 = some m ∧ m.id = 5)
      ∧ insertCompletionResult [vU1, vA1] 5 rNew
          = [vU1, vA1].take 1 ++ rNew :: [vU1, vA1].drop 1)
    ∧ insertCompletionResult [vU1, vA1] 42 rNew = [vU1, vA1] ++ [rNew] :=
  ⟨(C6_confirmed [vU1, vA1] 5 rNew).1 0 (by decide),
   (C6_confirmed [vU1, vA1] 42 rNew).2 (by decide)⟩

/-- C7: the derived title is persisted only when the first chat carrying the
event's id still has no title; when any title is already set there, the
handler changes nothing and writes nothing to the store. -/
theorem C7_confirmed (chat_history : List Chat) (chat_id : Int) (title : String) :
    (∀ c t0, chat_history.find? (fun ch => ch.id == chat_id) = some c →
        c.title = some t0 →
        handleTitleComplete chat_history chat_id title = (chat_history, none))
    ∧ ((handleTitleComplete chat_history chat_id title).2 ≠ none →
        ∃ c, chat_history.find? (fun ch => ch.id == chat_id) = some c
          ∧ c.title = none) := by
  induction chat_history with
  | nil =>
      constructor
      · intro c t0 h
        simp [List.find?] at h
      · intro h
        simp [handleTitleComplete] at h
  | cons chat rest ih =>
      cases hid : (chat.id == chat_id) with
      | true =>
          constructor
          · intro c t0 hfind htitle
            simp only [List.find?_cons, hid] at hfind
            have hc : chat = c := Option.some.inj hfind
            subst hc
            simp [handleTitleComplete, hid, htitle]
          · intro hne
            by_cases ht : chat.title = none
            · exact ⟨chat, by simp only [List.find?_cons, hid], ht⟩
            · exfalso
              apply hne
              simp [handleTitleComplete, hid, ht]
      | false =>
          constructor
          · intro c t0 hfind htitle
            simp only [List.find?_cons, hid] at hfind
            have hrest := ih.1 c t0 hfind htitle
            simp [handleTitleComplete, hid, hrest]
          · intro hne
            have h2 : (handleTitleComplete rest chat_id title).2 ≠ none := by
              simpa [handleTitleComplete, hid] using hne
            obtain ⟨c, hfind, ht⟩ := ih.2 h2
            exact ⟨c, by simp only [List.find?_cons, hid]; exact hfind, ht⟩

/-- C7 witness: with the title already set on chat 1, the derived title is
discarded: the history is unchanged and no store write happens. -/
theorem C7_witness :
    handleTitleComplete [titledChat] 1 "derived title" = ([titledChat], none) :=
  (C7_confirmed [titledChat] 1 "derived title").1 titledChat "user title" rfl rfl

/-- Removing a key from an association map makes its lookup miss. -/
theorem lookup_mapRemove_self {κ ν : Type} [BEq κ] [LawfulBEq κ] (k : κ)
    (l : List (κ × ν)) : (mapRemove k l).lookup k = none := by
  induction l with
  | nil => rfl
  | cons kv l ih =>
      obtain ⟨k', v⟩ := kv
      by_cases h : k' = k
      · simpa [mapRemove, List.filter_cons, h] using ih
      · have h1 : (k' == k) = false := beq_eq_false_iff_ne.mpr h
        have h2 : (k == k') = false := beq_eq_false_iff_ne.mpr fun e => h e.symm
        simp only [mapRemove, List.filter_cons, h1, Bool.not_false, if_true]
        simp only [List.lookup_cons, h2]
        exact ih

/-- Removing one key leaves every other key's lookup unchanged. -/
theorem lookup_mapRemove_ne {κ ν : Type} [BEq κ] [LawfulBEq κ] (k k2 : κ)
    (l : List (κ × ν)) (h : k2 ≠ k) :
    (mapRemove k l).lookup k2 = l.lookup k2 := by
  induction l with
  | nil => rfl
  | cons kv l ih =>
      obtain ⟨k', v⟩ := kv
      by_cases hk : k' = k
      · subst hk
        have h2 : (k2 == k') = false := beq_eq_false_iff_ne.mpr h
        simp only [mapRemove, List.filter_cons, beq_self_eq_true, Bool.not_true,
          if_false, List.lookup_cons, h2]
        exact ih
      · have h1 : (k' == k) = false := beq_eq_false_iff_ne.mpr hk
        by_cases hk2 : k2 = k'
        · subst hk2
          simp [mapRemove, List.filter_cons, h1, List.lookup_cons]
        · have h2 : (k2 == k') = false := beq_eq_false_iff_ne.mpr hk2
          simp only [mapRemove, List.filter_cons, h1, Bool.not_false, if_true,
            List.lookup_cons, h2]
          exact ih

/-- Inserting under one key leaves every other key's lookup unchanged. -/
theorem lookup_mapInsert_ne {κ ν : Type} [BEq κ] [LawfulBEq κ] (k k2 : κ) (v : ν)
    (l : List (κ × ν)) (h : k2 ≠ k) :
    (mapInsert k v l).lookup k2 = l.lookup k2 := by
  have hkk : (k2 == k) = false := beq_eq_false_iff_ne.mpr h
  simp only [mapInsert, List.lookup_cons, hkk]
  exact lookup_mapRemove_ne k k2 l h

/-- A lookup that already misses keeps missing on any filtered sublist. -/
theorem lookup_none_of_filter {κ ν : Type} [BEq κ] (k : κ) (q : κ × ν → Bool)
    (l : List (κ × ν)) (h : l.lookup k = none) : (l.filter q).lookup k = none := by
  induction l with
  | nil => rfl
  | cons kv l ih =>
      obtain ⟨k', v⟩ := kv
      by_cases hb : (k == k') = true
      · simp [List.lookup_cons, hb] at h
      · have h1 : (k == k') = false := Bool.eq_false_iff.mpr hb
        simp only [List.lookup_cons, h1] at h
        by_cases hq : q (k', v) = true
        · simp only [List.filter_cons, hq, if_true, List.lookup_cons, h1]
          exact ih h
        · have hq' : q (k', v) = false := Bool.eq_false_iff.mpr hq
          simp only [List.filter_cons, hq', if_false]
          exact ih h

/-- C9: when the requested model is absent from available_models, or no
provider client exists for its owning provider, spawn_inference_task writes
exactly one synchronous error-only assistant message (no content) for the
chat and model and spawns no generation task. -/
theorem C9_confirmed
    (handles : List ((Int × Int) × Nat)) (available_models : List (Int × Model))
    (provider_clients : List Int) (in_progress : List (Int × Int))
    (title_in_progress : List Int)
    (model_id user_message_id user_message_dt chat_id : Int)
    (conversation : List ChatMessage) (generate_title : Bool) (nowMs : Int)
    (new_handle : Nat)
    (h : available_models.lookup model_id = none
      ∨ ∃ model, available_models.lookup model_id = some model
          ∧ provider_clients.contains model.provider_id = false) :
    (spawn_inference_task handles available_models provider_clients in_progress
        title_in_progress model_id user_message_id user_message_dt chat_id
        conversation generate_title nowMs new_handle).spawned = false
    ∧ ∃ msg,
        (spawn_inference_task handles available_models provider_clients in_progress
            title_in_progress model_id user_message_id user_message_dt chat_id
            conversation generate_title nowMs new_handle).dbWrites = [msg]
        ∧ msg.chat_role = ChatRole.assistant
        ∧ msg.content = none
        ∧ msg.error.isSome = true
        ∧ msg.chat_id = chat_id
        ∧ msg.model_id = some model_id := by
  rcases h with h | ⟨model, hm, hp⟩
  · exact ⟨by simp [spawn_inference_task, h],
      ⟨ChatMessage.new_assistant_message_with_error chat_id model_id
          ("Model id " ++ toString model_id ++ " not found") user_message_dt nowMs,
        by simp [spawn_inference_task, h], rfl, rfl, rfl, rfl, rfl⟩⟩
  · have hp2 : model.provider_id ∉ provider_clients := by simpa using hp
    exact ⟨by simp [spawn_inference_task, hm, hp2],
      ⟨ChatMessage.new_assistant_message_with_error chat_id model_id
          ("Provider for model id " ++ toString model_id ++ " not found")
          user_message_dt nowMs,
        by simp [spawn_inference_task, hm, hp2], rfl, rfl, rfl, rfl, rfl⟩⟩

/-- C9 witness: model 2 absent from an empty available_models map. -/
theorem C9_witness :
    (spawn_inference_task [((1, 2), 0)] [] [] [] [] 2 5 1000 1 [] false 2000 3).spawned
        = false
    ∧ ∃ msg,
        (spawn_inference_task [((1, 2), 0)] [] [] [] [] 2 5 1000 1 [] false 2000 3).dbWrites
            = [msg]
        ∧ msg.chat_role = ChatRole.assistant
        ∧ msg.content = none
        ∧ msg.error.isSome = true
        ∧ msg.chat_id = 1
        ∧ msg.model_id = some 2 :=
  C9_confirmed [((1, 2), 0)] [] [] [] [] 2 5 1000 1 [] false 2000 3 (Or.inl rfl)

/-- C10: on the fail-fast path the prior (chat, model) chain handle — removed
from the table before the availability checks — is not reinserted: the
table afterwards is exactly the input minus that key, its lookup misses,
and no completion event is emitted, so the in-memory view never receives
the error message. -/
theorem C10_confirmed
    (handles : List ((Int × Int) × Nat)) (available_models : List (Int × Model))
    (provider_clients : List Int) (in_progress : List (Int × Int))
    (title_in_progress : List Int)
    (model_id user_message_id user_message_dt chat_id : Int)
    (conversation : List ChatMessage) (generate_title : Bool) (nowMs : Int)
    (new_handle : Nat)
    (h : available_models.lookup model_id = none
      ∨ ∃ model, available_models.lookup model_id = some model
          ∧ provider_clients.contains model.provider_id = false) :
    (spawn_inference_task handles available_models provider_clients in_progress
        title_in_progress model_id user_message_id user_message_dt chat_id
        conversation generate_title nowMs new_handle).handles_after
      = mapRemove (chat_id, model_id) handles
    ∧ (spawn_inference_task handles available_models provider_clients in_progress
        title_in_progress model_id user_message_id user_message_dt chat_id
        conversation generate_title nowMs new_handle).handles_after.lookup
          (chat_id, model_id) = none
    ∧ (spawn_inference_task handles available_models provider_clients in_progress
        title_in_progress model_id user_message_id user_message_dt chat_id
        conversation generate_title nowMs new_handle).events = [] := by
  rcases h with h | ⟨model, hm, hp⟩
  · refine ⟨by simp [spawn_inference_task, h], ?_, by simp [spawn_inference_task, h]⟩
    have he : (spawn_inference_task handles available_models provider_clients
        in_progress title_in_progress model_id user_message_id user_message_dt
        chat_id conversation generate_title nowMs new_handle).handles_after
          = mapRemove (chat_id, model_id) handles := by
      simp [spawn_inference_task, h]
    rw [he]
    exact lookup_mapRemove_self _ _
  · have hp2 : model.provider_id ∉ provider_clients := by simpa using hp
    refine ⟨by simp [spawn_inference_task, hm, hp2], ?_,
      by simp [spawn_inference_task, hm, hp2]⟩
    have he : (spawn_inference_task handles available_models provider_clients
        in_progress title_in_progress model_id user_message_id user_message_dt
        chat_id conversation generate_title nowMs new_handle).handles_after
          = mapRemove (chat_id, model_id) handles := by
      simp [spawn_inference_task, hm, hp2]
    rw [he]
    exact lookup_mapRemove_self _ _

/-- C10 witness: the fail-fast path where model 2 is known but provider 9
has no client capability; the stale handle for (chat 1, model 2) is gone. -/
theorem C10_witness :
    (spawn_inference_task [((1, 2), 0)] [(2, w9Model)] [] [] [] 2 5 1000 1 []
        false 2000 3).handles_after = mapRemove (1, 2) [((1, 2), 0)]
    ∧ (spawn_inference_task [((1, 2), 0)] [(2, w9Model)] [] [] [] 2 5 1000 1 []
        false 2000 3).handles_after.lookup (1, 2) = none
    ∧ (spawn_inference_task [((1, 2), 0)] [(2, w9Model)] [] [] [] 2 5 1000 1 []
        false 2000 3).events = [] :=
  C10_confirmed [((1, 2), 0)] [(2, w9Model)] [] [] [] 2 5 1000 1 [] false 2000 3
    (Or.inr ⟨w9Model, rfl, rfl⟩)

/-- Any sync call a reconciliation round adds is for a provider whose
catalog fetch succeeded. -/
theorem refreshStep_dbSyncCalls (ams : List Model) (pcs : List Int) (now : Int)
    (fR : Int → Except Unit (List Model))
    (sR : Int → Except Unit (List Model × List Int))
    (acc : RefreshOutcome) (q : Provider) :
    ∀ c ∈ (refreshStep ams pcs now fR sR acc q).dbSyncCalls,
      c ∈ acc.dbSyncCalls ∨ ∃ cat, fR c.1 = Except.ok cat := by
  intro c hc
  by_cases hq : q.id ∈ pcs
  · cases hfe : fR q.id with
    | error e =>
        left
        simpa [refreshStep, hq, hfe] using hc
    | ok cat =>
        cases hsy : sR q.id with
        | ok res =>
            simp [refreshStep, hq, hfe, hsy] at hc
            rcases hc with hc | hc
            · exact Or.inl hc
            · right
              refine ⟨cat, ?_⟩
              rw [hc]
              exact hfe
        | error e =>
            simp [refreshStep, hq, hfe, hsy] at hc
            rcases hc with hc | hc
            · exact Or.inl hc
            · right
              refine ⟨cat, ?_⟩
              rw [hc]
              exact hfe
  · left
    simpa [refreshStep, hq] using hc

/-- Over a whole pass, every sync call is for a provider whose fetch
succeeded. -/
theorem refresh_foldl_dbSyncCalls (ams : List Model) (pcs : List Int) (now : Int)
    (fR : Int → Except Unit (List Model))
    (sR : Int → Except Unit (List Model × List Int))
    (ps : List Provider) (acc : RefreshOutcome) :
    ∀ c ∈ (ps.foldl (refreshStep ams pcs now fR sR) acc).dbSyncCalls,
      c ∈ acc.dbSyncCalls ∨ ∃ cat, fR c.1 = Except.ok cat := by
  induction ps generalizing acc with
  | nil => exact fun c hc => Or.inl hc
  | cons q ps ih =>
      intro c hc
      rcases ih (refreshStep ams pcs now fR sR acc q) c hc with h | h
      · exact refreshStep_dbSyncCalls ams pcs now fR sR acc q c h
      · exact Or.inr h

/-- Any removed model id a round adds comes out of a successful sync reply
of a provider whose fetch succeeded. -/
theorem refreshStep_removed (ams : List Model) (pcs : List Int) (now : Int)
    (fR : Int → Except Unit (List Model))
    (sR : Int → Except Unit (List Model × List Int))
    (acc : RefreshOutcome) (q : Provider) :
    ∀ x ∈ (refreshStep ams pcs now fR sR acc q).all_removed_model_ids,
      x ∈ acc.all_removed_model_ids
      ∨ ∃ cat added removed, fR q.id = Except.ok cat
          ∧ sR q.id = Except.ok (added, removed) ∧ x ∈ removed := by
  intro x hx
  by_cases hq : q.id ∈ pcs
  · cases hfe : fR q.id with
    | error e =>
        left
        simpa [refreshStep, hq, hfe] using hx
    | ok cat =>
        cases hsy : sR q.id with
        | ok res =>
            simp [refreshStep, hq, hfe, hsy] at hx
            rcases hx with hx | hx
            · exact Or.inl hx
            · exact Or.inr ⟨cat, res.1, res.2, rfl, rfl, hx⟩
        | error e =>
            left
            simpa [refreshStep, hq, hfe, hsy] using hx
  · left
    simpa [refreshStep, hq] using hx

/-- Over a whole pass, every removed model id comes out of a successful sync
reply of some provider whose fetch succeeded. -/
theorem refresh_foldl_removed (ams : List Model) (pcs : List Int) (now : Int)
    (fR : Int → Except Unit (List Model))
    (sR : Int → Except Unit (List Model × List Int))
    (ps : List Provider) (acc : RefreshOutcome) :
    ∀ x ∈ (ps.foldl (refreshStep ams pcs now fR sR) acc).all_removed_model_ids,
      x ∈ acc.all_removed_model_ids
      ∨ ∃ qid cat added removed, fR qid = Except.ok cat
          ∧ sR qid = Except.ok (added, removed) ∧ x ∈ removed := by
  induction ps generalizing acc with
  | nil => exact fun x hx => Or.inl hx
  | cons q ps ih =>
      intro x hx
      rcases ih (refreshStep ams pcs now fR sR acc q) x hx with h | h
      · rcases refreshStep_removed ams pcs now fR sR acc q x h with
          h2 | ⟨cat, added, removed, h1, h2, h3⟩
        · exact Or.inl h2
        · exact Or.inr ⟨q.id, cat, added, removed, h1, h2, h3⟩
      · exact Or.inr h

/-- Any added model a round adds comes out of a successful sync reply of a
provider whose fetch succeeded. -/
theorem refreshStep_added (ams : List Model) (pcs : List Int) (now : Int)
    (fR : Int → Except Unit (List Model))
    (sR : Int → Except Unit (List Model × List Int))
    (acc : RefreshOutcome) (q : Provider) :
    ∀ a ∈ (refreshStep ams pcs now fR sR acc q).all_added_models,
      a ∈ acc.all_added_models
      ∨ ∃ cat added removed, fR q.id = Except.ok cat
          ∧ sR q.id = Except.ok (added, removed) ∧ a ∈ added := by
  intro a ha
  by_cases hq : q.id ∈ pcs
  · cases hfe : fR q.id with
    | error e =>
        left
        simpa [refreshStep, hq, hfe] using ha
    | ok cat =>
        cases hsy : sR q.id with
        | ok res =>
            simp [refreshStep, hq, hfe, hsy] at ha
            rcases ha with ha | ha
            · exact Or.inl ha
            · exact Or.inr ⟨cat, res.1, res.2, rfl, rfl, ha⟩
        | error e =>
            left
            simpa [refreshStep, hq, hfe, hsy] using ha
  · left
    simpa [refreshStep, hq] using ha

/-- Over a whole pass, every added model comes out of a successful sync
reply of some provider whose fetch succeeded. -/
theorem refresh_foldl_added (ams : List Model) (pcs : List Int) (now : Int)
    (fR : Int → Except Unit (List Model))
    (sR : Int → Except Unit (List Model × List Int))
    (ps : List Provider) (acc : RefreshOutcome) :
    ∀ a ∈ (ps.foldl (refreshStep ams pcs now fR sR) acc).all_added_models,
      a ∈ acc.all_added_models
      ∨ ∃ qid cat added removed, fR qid = Except.ok cat
          ∧ sR qid = Except.ok (added, removed) ∧ a ∈ added := by
  induction ps generalizing acc with
  | nil => exact fun a ha => Or.inl ha
  | cons q ps ih =>
      intro a ha
      rcases ih (refreshStep ams pcs now fR sR acc q) a ha with h | h
      · rcases refreshStep_added ams pcs now fR sR acc q a h with
          h2 | ⟨cat, added, removed, h1, h2, h3⟩
        · exact Or.inl h2
        · exact Or.inr ⟨q.id, cat, added, removed, h1, h2, h3⟩
      · exact Or.inr h

/-- A round never drops accumulated temporarily-unavailable models. -/
theorem refreshStep_temp_mono (ams : List Model) (pcs : List Int) (now : Int)
    (fR : Int → Except Unit (List Model))
    (sR : Int → Except Unit (List Model × List Int))
    (acc : RefreshOutcome) (q : Provider) :
    ∀ m ∈ acc.temporarily_unavailable_models,
      m ∈ (refreshStep ams pcs now fR sR acc q).temporarily_unavailable_models := by
  intro m hm
  by_cases hq : q.id ∈ pcs
  · cases hfe : fR q.id with
    | error e => simp [refreshStep, hq, hfe, List.mem_append, hm]
    | ok cat =>
        cases hsy : sR q.id with
        | ok res => simpa [refreshStep, hq, hfe, hsy] using hm
        | error e => simpa [refreshStep, hq, hfe, hsy] using hm
  · simpa [refreshStep, hq] using hm

/-- A pass never drops accumulated temporarily-unavailable models. -/
theorem refresh_foldl_temp_mono (ams : List Model) (pcs : List Int) (now : Int)
    (fR : Int → Except Unit (List Model))
    (sR : Int → Except Unit (List Model × List Int))
    (ps : List Provider) (acc : RefreshOutcome) :
    ∀ m ∈ acc.temporarily_unavailable_models,
      m ∈ (ps.foldl (refreshStep ams pcs now fR sR) acc).temporarily_unavailable_models := by
  induction ps generalizing acc with
  | nil => exact fun m hm => hm
  | cons q ps ih =>
      intro m hm
      exact ih _ m (refreshStep_temp_mono ams pcs now fR sR acc q m hm)

/-- A round never drops accumulated providers-to-remove entries. -/
theorem refreshStep_providers_mono (ams : List Model) (pcs : List Int) (now : Int)
    (fR : Int → Except Unit (List Model))
    (sR : Int → Except Unit (List Model × List Int))
    (acc : RefreshOutcome) (q : Provider) :
    ∀ x ∈ acc.providers_to_remove,
      x ∈ (refreshStep ams pcs now fR sR acc q).providers_to_remove := by
  intro x hx
  by_cases hq : q.id ∈ pcs
  · cases hfe : fR q.id with
    | error e => simp [refreshStep, hq, hfe, List.mem_append, hx]
    | ok cat =>
        cases hsy : sR q.id with
        | ok res => simpa [refreshStep, hq, hfe, hsy] using hx
        | error e => simpa [refreshStep, hq, hfe, hsy] using hx
  · simpa [refreshStep, hq] using hx

/-- A pass never drops accumulated providers-to-remove entries. -/
theorem refresh_foldl_providers_mono (ams : List Model) (pcs : List Int) (now : Int)
    (fR : Int → Except Unit (List Model))
    (sR : Int → Except Unit (List Model × List Int))
    (ps : List Provider) (acc : RefreshOutcome) :
    ∀ x ∈ acc.providers_to_remove,
      x ∈ (ps.foldl (refreshStep ams pcs now fR sR) acc).providers_to_remove := by
  induction ps generalizing acc with
  | nil => exact fun x hx => hx
  | cons q ps ih =>
      intro x hx
      exact ih _ x (refreshStep_providers_mono ams pcs now fR sR acc q x hx)

/-- A refreshed provider with a client whose fetch fails ends up marked for
removal, with all its known models in the temporarily-unavailable list. -/
theorem refresh_foldl_failure (ams : List Model) (pcs : List Int) (now : Int)
    (fR : Int → Except Unit (List Model))
    (sR : Int → Except Unit (List Model × List Int))
    (ps : List Provider) (acc : RefreshOutcome) (q : Provider)
    (hq : q ∈ ps) (hcl : q.id ∈ pcs) (hf : fR q.id = Except.error ()) :
    q.id ∈ (ps.foldl (refreshStep ams pcs now fR sR) acc).providers_to_remove
    ∧ ∀ m ∈ ams, m.provider_id = q.id →
        m ∈ (ps.foldl (refreshStep ams pcs now fR sR) acc).temporarily_unavailable_models := by
  induction ps generalizing acc with
  | nil => cases hq
  | cons p ps ih =>
      rcases List.mem_cons.mp hq with heq | htail
      · subst heq
        rw [List.foldl_cons]
        constructor
        · apply refresh_foldl_providers_mono
          simp [refreshStep, hcl, hf]
        · intro m hm hmp
          apply refresh_foldl_temp_mono
          simp [refreshStep, hcl, hf]
          exact Or.inr ⟨hm, hmp⟩
      · rw [List.foldl_cons]
        exact ih (refreshStep ams pcs now fR sR acc p) htail

/-- Removing deleted models touches neither the key flags, the clients, nor
the marked-down set. -/
theorem removeModels_frame (rs : List Int) (s : CatalogState) :
    (rs.foldl removeModelStep s).provider_api_keys_set = s.provider_api_keys_set
    ∧ (rs.foldl removeModelStep s).provider_clients = s.provider_clients
    ∧ (rs.foldl removeModelStep s).providers_marked_down = s.providers_marked_down := by
  induction rs generalizing s with
  | nil => exact ⟨rfl, rfl, rfl⟩
  | cons r rs ih => exact ih (removeModelStep s r)

/-- Removing deleted models leaves every id outside the removal list bound
to the same model in all_models. -/
theorem removeModels_all_lookup (rs : List Int) (s : CatalogState) (k : Int)
    (h : ∀ x ∈ rs, x ≠ k) :
    (rs.foldl removeModelStep s).all_models.lookup k = s.all_models.lookup k := by
  induction rs generalizing s with
  | nil => rfl
  | cons r rs ih =>
      rw [List.foldl_cons,
        ih (removeModelStep s r) (fun x hx => h x (List.mem_cons_of_mem r hx))]
      exact lookup_mapRemove_ne r k s.all_models
        (fun e => h r (List.mem_cons_self r rs) e.symm)

/-- Adding models touches neither the key flags, the clients, nor the
marked-down set. -/
theorem addModels_frame (as : List Model) (s : CatalogState) :
    (as.foldl addModelStep s).provider_api_keys_set = s.provider_api_keys_set
    ∧ (as.foldl addModelStep s).provider_clients = s.provider_clients
    ∧ (as.foldl addModelStep s).providers_marked_down = s.providers_marked_down := by
  induction as generalizing s with
  | nil => exact ⟨rfl, rfl, rfl⟩
  | cons a as ih => exact ih (addModelStep s a)

/-- Adding models leaves every id outside the added set bound to the same
model in all_models. -/
theorem addModels_all_lookup (as : List Model) (s : CatalogState) (k : Int)
    (h : ∀ a ∈ as, a.id ≠ k) :
    (as.foldl addModelStep s).all_models.lookup k = s.all_models.lookup k := by
  induction as generalizing s with
  | nil => rfl
  | cons a as ih =>
      rw [List.foldl_cons,
        ih (addModelStep s a) (fun x hx => h x (List.mem_cons_of_mem a hx))]
      exact lookup_mapInsert_ne a.id k a s.all_models
        (fun e => h a (List.mem_cons_self a as) e.symm)

/-- Removing providers touches neither model map. -/
theorem removeProviders_models_frame (ps : List Int) (s : CatalogState) :
    (ps.foldl removeProviderStep s).all_models = s.all_models
    ∧ (ps.foldl removeProviderStep s).available_models = s.available_models := by
  induction ps generalizing s with
  | nil => exact ⟨rfl, rfl⟩
  | cons p ps ih => exact ih (removeProviderStep s p)

/-- A provider id absent from the client set stays absent while providers
are removed. -/
theorem removeProviders_clients_preserve (ps : List Int) (s : CatalogState)
    (pid : Int) (h : pid ∉ s.provider_clients) :
    pid ∉ (ps.foldl removeProviderStep s).provider_clients := by
  induction ps generalizing s with
  | nil => exact h
  | cons p ps ih =>
      exact ih _ (fun hm => h (List.mem_of_mem_filter hm))

/-- A provider id already marked down stays marked down. -/
theorem removeProviders_marked_preserve (ps : List Int) (s : CatalogState)
    (pid : Int) (h : pid ∈ s.providers_marked_down) :
    pid ∈ (ps.foldl removeProviderStep s).providers_marked_down := by
  induction ps generalizing s with
  | nil => exact h
  | cons p ps ih =>
      exact ih _ (List.mem_insert_of_mem h)

/-- Every provider in the removal list loses its client capability and ends
up marked down. -/
theorem removeProviders_down (ps : List Int) (s : CatalogState) (pid : Int)
    (h : pid ∈ ps) :
    pid ∉ (ps.foldl removeProviderStep s).provider_clients
    ∧ pid ∈ (ps.foldl removeProviderStep s).providers_marked_down := by
  induction ps generalizing s with
  | nil => cases h
  | cons p ps ih =>
      rcases List.mem_cons.mp h with heq | htail
      · subst heq
        rw [List.foldl_cons]
        constructor
        · apply removeProviders_clients_preserve
          intro hm
          have h2 := (List.mem_filter.mp hm).2
          simp at h2
        · apply removeProviders_marked_preserve
          exact List.mem_insert_self pid _
      · rw [List.foldl_cons]
        exact ih (removeProviderStep s p) htail

/-- Marking models temporarily unavailable touches neither all_models, the
clients, nor the marked-down set. -/
theorem tempUnavailable_frame (ts : List Model) (s : CatalogState) :
    (ts.foldl tempUnavailableStep s).all_models = s.all_models
    ∧ (ts.foldl tempUnavailableStep s).provider_clients = s.provider_clients
    ∧ (ts.foldl tempUnavailableStep s).providers_marked_down
        = s.providers_marked_down := by
  induction ts generalizing s with
  | nil => exact ⟨rfl, rfl, rfl⟩
  | cons t ts ih => exact ih (tempUnavailableStep s t)

/-- An id already missing from available_models keeps missing while models
are marked temporarily unavailable. -/
theorem tempUnavailable_none_preserve (ts : List Model) (s : CatalogState)
    (k : Int) (h : s.available_models.lookup k = none) :
    (ts.foldl tempUnavailableStep s).available_models.lookup k = none := by
  induction ts generalizing s with
  | nil => exact h
  | cons t ts ih =>
      exact ih _ (lookup_none_of_filter k _ s.available_models h)

/-- Every model in the temporarily-unavailable list disappears from
available_models. -/
theorem tempUnavailable_none (ts : List Model) (s : CatalogState) (t0 : Model)
    (ht : t0 ∈ ts) :
    (ts.foldl tempUnavailableStep s).available_models.lookup t0.id = none := by
  induction ts generalizing s with
  | nil => cases ht
  | cons t ts ih =>
      rcases List.mem_cons.mp ht with heq | htail
      · subst heq
        exact tempUnavailable_none_preserve ts _ t0.id
          (lookup_mapRemove_self t0.id s.available_models)
      · exact ih (tempUnavailableStep s t) htail

/-- C8: when a provider selected for reconciliation has a client but its
catalog fetch fails, the pass issues no store sync call for that provider
(its stored models are neither deprecated nor deleted), the aggregated
event marks it for removal and lists its known models as temporarily
unavailable, and handling that event removes the provider's client
capability, marks it down, and removes its models from available_models
only — every id of one of its models still resolves to the same entry of
all_models as before.  The hypothesis on sR states that the store's
successful sync replies never mention the failed provider's model ids
(identities are store-assigned and sync is scoped to the provider asked). -/
theorem C8_confirmed
    (providers : List Provider) (pcs : List Int) (ams : List Model) (now : Int)
    (fR : Int → Except Unit (List Model))
    (sR : Int → Except Unit (List Model × List Int))
    (p : Provider) (s : CatalogState)
    (hp : p ∈ providers) (hneed : needsRefresh now p = true)
    (hclient : p.id ∈ pcs)
    (hfetch : fR p.id = Except.error ())
    (hsync : ∀ qid cat added removed, fR qid = Except.ok cat →
        sR qid = Except.ok (added, removed) →
        ∀ m ∈ ams, m.provider_id = p.id →
          (∀ x ∈ removed, x ≠ m.id) ∧ (∀ a ∈ added, a.id ≠ m.id)) :
    (∀ c ∈ (refresh_models_with_provider_api providers pcs ams now fR sR).1.dbSyncCalls,
        c.1 ≠ p.id)
    ∧ p.id ∈ (refresh_models_with_provider_api providers pcs ams now
        fR sR).1.providers_to_remove
    ∧ (∀ m ∈ ams, m.provider_id = p.id →
        m ∈ (refresh_models_with_provider_api providers pcs ams now
          fR sR).1.temporarily_unavailable_models)
    ∧ p.id ∉ (handleModelsRefreshedEvent s
        (refresh_models_with_provider_api providers pcs ams now fR sR).2).provider_clients
    ∧ p.id ∈ (handleModelsRefreshedEvent s
        (refresh_models_with_provider_api providers pcs ams now fR sR).2).providers_marked_down
    ∧ (∀ m ∈ ams, m.provider_id = p.id →
        (handleModelsRefreshedEvent s
          (refresh_models_with_provider_api providers pcs ams now
            fR sR).2).available_models.lookup m.id = none
        ∧ (handleModelsRefreshedEvent s
            (refresh_models_with_provider_api providers pcs ams now
              fR sR).2).all_models.lookup m.id = s.all_models.lookup m.id) := by
  have hfr := refresh_foldl_failure ams pcs now fR sR
    (providers.filter (needsRefresh now)) emptyRefreshOutcome p
    (List.mem_filter.mpr ⟨hp, hneed⟩) hclient hfetch
  set O := (providers.filter (needsRefresh now)).foldl
    (refreshStep ams pcs now fR sR) emptyRefreshOutcome with hO
  set S1 := O.all_removed_model_ids.foldl removeModelStep s with hS1
  set S2 := O.all_added_models.foldl addModelStep S1 with hS2
  set S3 := O.providers_to_remove.foldl removeProviderStep S2 with hS3
  set S4 := O.temporarily_unavailable_models.foldl tempUnavailableStep S3 with hS4
  have hdown := removeProviders_down O.providers_to_remove S2 p.id hfr.1
  have hremoved : ∀ m ∈ ams, m.provider_id = p.id →
      ∀ x ∈ O.all_removed_model_ids, x ≠ m.id := by
    intro m hm hmp x hx
    rcases refresh_foldl_removed ams pcs now fR sR
        (providers.filter (needsRefresh now)) emptyRefreshOutcome x hx with
      h0 | ⟨qid, cat, added, removed, hok, hsok, hxin⟩
    · cases h0
    · exact (hsync qid cat added removed hok hsok m hm hmp).1 x hxin
  have hadded : ∀ m ∈ ams, m.provider_id = p.id →
      ∀ a ∈ O.all_added_models, a.id ≠ m.id := by
    intro m hm hmp a ha
    rcases refresh_foldl_added ams pcs now fR sR
        (providers.filter (needsRefresh now)) emptyRefreshOutcome a ha with
      h0 | ⟨qid, cat, added, removed, hok, hsok, hain⟩
    · cases h0
    · exact (hsync qid cat added removed hok hsok m hm hmp).2 a hain
  refine ⟨?_, hfr.1, hfr.2, ?_, ?_, ?_⟩
  · intro c hc
    rcases refresh_foldl_dbSyncCalls ams pcs now fR sR
        (providers.filter (needsRefresh now)) emptyRefreshOutcome c hc with
      h0 | ⟨cat, hcat⟩
    · cases h0
    · intro heq
      rw [heq, hfetch] at hcat
      cases hcat
  · show p.id ∉ S4.provider_clients
    have h4 : S4.provider_clients = S3.provider_clients :=
      (tempUnavailable_frame O.temporarily_unavailable_models S3).2.1
    rw [h4]
    exact hdown.1
  · show p.id ∈ S4.providers_marked_down
    have h5 : S4.providers_marked_down = S3.providers_marked_down :=
      (tempUnavailable_frame O.temporarily_unavailable_models S3).2.2
    rw [h5]
    exact hdown.2
  · intro m hm hmp
    constructor
    · show S4.available_models.lookup m.id = none
      exact tempUnavailable_none O.temporarily_unavailable_models S3 m
        (hfr.2 m hm hmp)
    · show S4.all_models.lookup m.id = s.all_models.lookup m.id
      have e1 : S4.all_models = S3.all_models :=
        (tempUnavailable_frame O.temporarily_unavailable_models S3).1
      have e2 : S3.all_models = S2.all_models :=
        (removeProviders_models_frame O.providers_to_remove S2).1
      have e3 : S2.all_models.lookup m.id = S1.all_models.lookup m.id :=
        addModels_all_lookup O.all_added_models S1 m.id (hadded m hm hmp)
      have e4 : S1.all_models.lookup m.id = s.all_models.lookup m.id :=
        removeModels_all_lookup O.all_removed_model_ids s m.id (hremoved m hm hmp)
      rw [e1, e2, e3, e4]

/-- C8 witness: provider 9 (the only refreshed provider) fails its fetch in
the all-fail environment; its model 2 leaves available_models but keeps its
all_models entry, and no sync call is issued. -/
theorem C8_witness :
    (∀ c ∈ (refresh_models_with_provider_api [p9] [9] [w9Model] 100 fetchFail
        syncNothing).1.dbSyncCalls, c.1 ≠ p9.id)
    ∧ p9.id ∈ (refresh_models_with_provider_api [p9] [9] [w9Model] 100 fetchFail
        syncNothing).1.providers_to_remove
    ∧ (∀ m ∈ [w9Model], m.provider_id = p9.id →
        m ∈ (refresh_models_with_provider_api [p9] [9] [w9Model] 100 fetchFail
          syncNothing).1.temporarily_unavailable_models)
    ∧ p9.id ∉ (handleModelsRefreshedEvent catState0
        (refresh_models_with_provider_api [p9] [9] [w9Model] 100 fetchFail
          syncNothing).2).provider_clients
    ∧ p9.id ∈ (handleModelsRefreshedEvent catState0
        (refresh_models_with_provider_api [p9] [9] [w9Model] 100 fetchFail
          syncNothing).2).providers_marked_down
    ∧ (∀ m ∈ [w9Model], m.provider_id = p9.id →
        (handleModelsRefreshedEvent catState0
          (refresh_models_with_provider_api [p9] [9] [w9Model] 100 fetchFail
            syncNothing).2).available_models.lookup m.id = none
        ∧ (handleModelsRefreshedEvent catState0
            (refresh_models_with_provider_api [p9] [9] [w9Model] 100 fetchFail
              syncNothing).2).all_models.lookup m.id
            = catState0.all_models.lookup m.id) :=
  C8_confirmed [p9] [9] [w9Model] 100 fetchFail syncNothing p9 catState0
    (by simp) rfl (by simp [p9]) rfl
    (fun qid cat added removed hok => Except.noConfusion hok)

end Shore
